import Mathlib

/-!
Verification of the value-resolution core of `create-typed-env` (src/env.ts).

The embedding models the runtime behaviour of `createTypedEnv`:
* `Store` is a JS `Record<string, string>` (association list, first binding wins);
* `World` holds the process-wide environment (`process.env`) and the optional
  custom store supplied via the `env` option; when no custom store is supplied,
  the handle's store *is* `process.env` (aliasing is captured by `World.env`
  and `setEnvValue` writing through to whichever store is active);
* `FB` is the runtime shape of the `Fallback` union
  (`string | Record<string,string> | ((key) => string) | { env: NodeEnvs }`),
  with `undef` for the JS `undefined` that an absent option or a missed
  mode lookup produces;
* `getFallbackValue`, `getEnvValue`, `setEnvValue` and the proxy `get`/`set`
  traps are translated clause by clause from the source; log-sink invocations
  (`console.warn`) are collected as a list of emitted messages.
-/

namespace CreateTypedEnv

/-- A JS string-keyed record: association list, first binding wins. -/
abbrev Store := List (String × String)

/-- Generic association-list lookup (JS property read / `in` check). -/
def lookupList {α : Type} : List (String × α) → String → Option α
  | [], _ => none
  | (k, v) :: rest, key => if k = key then some v else lookupList rest key

/-- JS property assignment `obj[key] = v` (observed through `lookupList`). -/
def insertStore (s : Store) (key v : String) : Store := (key, v) :: s

/-- The mutable state visible to a handle: `process.env` plus the optional
custom store passed as the `env` option.  `custom = none` models the default
`env = process.env` (the two are the same object). -/
structure World where
  proc : Store
  custom : Option Store
deriving DecidableEq

/-- The store the handle reads and writes (`env` in the source closure). -/
def World.env (w : World) : Store := w.custom.getD w.proc

/-- `process.env.NODE_ENV` coerced to a property key: JS turns an `undefined`
index into the string "undefined" (`fallback.env[process.env.NODE_ENV]`). -/
def World.procModeKey (w : World) : String :=
  (lookupList w.proc "NODE_ENV").getD "undefined"

/-- Runtime shape of the `Fallback` union, plus `undef` for JS `undefined`. -/
inductive FB where
  | undef
  | str (s : String)
  | fn (f : String → String)
  | record (m : List (String × String))
  | modes (m : List (String × FB))

/-- The errors thrown by the source, one constructor per distinct `throw`. -/
inductive Err where
  | notFound (key : String)
  | invalidFallbackValue
  | invalidFallbackFor (key : String)
  | typeCheck (key : String)
  | lazyAssign (key : String)
deriving DecidableEq, Repr

instance {ε α : Type} [DecidableEq ε] [DecidableEq α] : DecidableEq (Except ε α) :=
  fun x y =>
  match x, y with
  | .ok a, .ok b => if h : a = b then .isTrue (by rw [h]) else .isFalse (by simp [h])
  | .error a, .error b => if h : a = b then .isTrue (by rw [h]) else .isFalse (by simp [h])
  | .ok _, .error _ => .isFalse (by simp)
  | .error _, .ok _ => .isFalse (by simp)

/-- The `Log` union: `boolean | NodeEnvs<boolean>`. -/
inductive LogPolicy where
  | bool (b : Bool)
  | modes (m : List (String × Bool))
deriving DecidableEq

/-- The options captured by the `createTypedEnv` closure
(`const { lazy, fallback, log, env = process.env } = options ?? {}`);
the `env` option lives in `World.custom`. -/
structure Config where
  lazy : Bool
  fallback : FB
  log : Option LogPolicy

/-- Decision made by `logger`: does `console.warn` fire?  Follows
`if (!log) return; if (typeof log === 'boolean') warn; else if (typeof log ===
'object' && nodeEnv && nodeEnv in log && log[nodeEnv]) warn;` where
`nodeEnv = env?.NODE_ENV` is read from the handle's store. -/
def shouldLog (log : Option LogPolicy) (env : Store) : Bool :=
  match log with
  | none => false
  | some (.bool b) => b
  | some (.modes m) =>
    match lookupList env "NODE_ENV" with
    | none => false
    | some nodeEnv =>
      if nodeEnv = "" then false else (lookupList m nodeEnv).getD false

/-- One `logger(message)` call: the list of sink invocations it performs. -/
def emitLog (log : Option LogPolicy) (env : Store) (msg : String) : List String :=
  if shouldLog log env then [msg] else []

theorem lookupList_sizeOf {α : Type} [SizeOf α] {l : List (String × α)}
    {k : String} {v : α} (h : lookupList l k = some v) : sizeOf v < sizeOf l := by
  induction l with
  | nil => simp [lookupList] at h
  | cons p rest ih =>
    obtain ⟨a, b⟩ := p
    simp only [lookupList] at h
    split at h
    · injection h with h
      subst h
      simp
      omega
    · have := ih h
      simp
      omega

theorem sizeOf_list_pos {α : Type} [SizeOf α] (l : List α) : 0 < sizeOf l := by
  cases l <;> simp

/-- Translation of the source's `getFallbackValue(fallback, key)` with the
value of `process.env.NODE_ENV` (as a property key) passed in as `modeKey`:
`typeof fallback === 'string'` returns it; `typeof fallback === 'function'`
returns `fallback(key)`; an object with an object-valued `env` property
recurses on `fallback.env[process.env.NODE_ENV]` (possibly `undefined`);
any other object recurses on `fallback[key]` when present; everything else
throws `Invalid fallback value: ${fallback}`. -/
def getFallbackValue (modeKey : String) : FB → String → Except Err String
  | .str s, _ => .ok s
  | .fn f, key => .ok (f key)
  | .modes m, key =>
    match h : lookupList m modeKey with
    | some fb => getFallbackValue modeKey fb key
    | none => getFallbackValue modeKey .undef key
  | .record m, key =>
    match h : lookupList m key with
    | some v => getFallbackValue modeKey (.str v) key
    | none => .error .invalidFallbackValue
  | .undef, _ => .error .invalidFallbackValue
termination_by fb _ => sizeOf fb
decreasing_by
  · have h1 := lookupList_sizeOf h
    simp
    omega
  · have h1 := sizeOf_list_pos m
    simp
    omega
  · have h1 := lookupList_sizeOf h
    simp
    omega

/-- JS truthiness of the `fallback` binding, as tested by `if (!fallback)`:
`undefined` and the empty string are falsy, every other shape is truthy. -/
def fallbackTruthy : FB → Bool
  | .undef => false
  | .str s => s != ""
  | .fn _ => true
  | .record _ => true
  | .modes _ => true

/-- Translation of `getEnvValue(key)`: present key returns the stored string;
otherwise a falsy `fallback` logs and throws not-found; otherwise the fallback
walk runs (its throw propagates uncaught, bypassing the logger); a truthy
result is logged and returned; a falsy (empty) result logs and throws the
invalid-fallback error.  The second component is the list of log-sink
invocations of this resolution. -/
def getEnvValue (cfg : Config) (w : World) (key : String) :
    Except Err String × List String :=
  match lookupList w.env key with
  | some v => (.ok v, [])
  | none =>
    if fallbackTruthy cfg.fallback then
      match getFallbackValue w.procModeKey cfg.fallback key with
      | .error e => (.error e, [])
      | .ok fv =>
        if fv != "" then
          (.ok fv, emitLog cfg.log w.env
            ("Environment variable " ++ key ++ " not found, using fallback: " ++ fv))
        else
          (.error (.invalidFallbackFor key), emitLog cfg.log w.env
            ("Invalid fallback value for environment variable " ++ key))
    else
      (.error (.notFound key), emitLog cfg.log w.env
        ("Environment variable " ++ key ++ " not found"))

/-- Translation of `setEnvValue(key, value)`: `env[key] = value` writes to the
active store — the custom one when supplied, else `process.env`. -/
def setEnvValue (w : World) (key v : String) : World :=
  match w.custom with
  | some c => { w with custom := some (insertStore c key v) }
  | none => { w with proc := insertStore w.proc key v }

/-- A JS value arriving at the proxy `set` trap: a string or anything else. -/
inductive JSValue where
  | str (s : String)
  | nonString (tag : String)

/-- The proxy `get` trap in eager mode: resolves immediately, mutating
nothing (the final component is the store state after the read). -/
def getTrapEager (cfg : Config) (w : World) (key : String) :
    Except Err String × List String × World :=
  ((getEnvValue cfg w key).1, (getEnvValue cfg w key).2, w)

/-- One call of the accessor closure returned by the `get` trap in lazy mode:
`(value?) => { if (value !== undefined) setEnvValue(prop, value); return
getEnvValue(prop); }`. -/
def lazyAccessorCall (cfg : Config) (w : World) (key : String)
    (arg : Option String) : Except Err String × List String × World :=
  match arg with
  | some v =>
    ((getEnvValue cfg (setEnvValue w key v) key).1,
     (getEnvValue cfg (setEnvValue w key v) key).2,
     setEnvValue w key v)
  | none => ((getEnvValue cfg w key).1, (getEnvValue cfg w key).2, w)

/-- The proxy `set` trap: eager mode type-checks the value before mutating;
lazy mode rejects assignment outright. -/
def setTrap (cfg : Config) (w : World) (key : String) (v : JSValue) :
    Except Err Unit × World :=
  if cfg.lazy = false then
    match v with
    | .nonString _ => (.error (.typeCheck key), w)
    | .str s => (.ok (), setEnvValue w key s)
  else
    (.error (.lazyAssign key), w)

/-! Helper lemmas shared by the claim theorems. -/

theorem getEnvValue_hit (cfg : Config) (w : World) (key v : String)
    (h : lookupList w.env key = some v) :
    getEnvValue cfg w key = (.ok v, []) := by
  simp [getEnvValue, h]

theorem lookupList_insert (s : Store) (k v : String) :
    lookupList (insertStore s k v) k = some v := by
  simp [insertStore, lookupList]

theorem setEnvValue_env (w : World) (k v : String) :
    (setEnvValue w k v).env = insertStore w.env k v := by
  cases h : w.custom <;> simp [setEnvValue, World.env, h]

/-- A mode-scoped log policy fires only when the handle store's `NODE_ENV` is
a non-empty key of the policy mapping whose value is `true`. -/
theorem shouldLog_modes_true {m : List (String × Bool)} {env : Store}
    (h : shouldLog (some (.modes m)) env = true) :
    ∃ mode, lookupList env "NODE_ENV" = some mode ∧ mode ≠ "" ∧
      lookupList m mode = some true := by
  simp only [shouldLog] at h
  cases hm : lookupList env "NODE_ENV" with
  | none => rw [hm] at h; simp at h
  | some mode =>
    rw [hm] at h
    by_cases hmode : mode = ""
    · simp [hmode] at h
    · refine ⟨mode, rfl, hmode, ?_⟩
      cases hv : lookupList m mode with
      | none => simp [hmode, hv] at h
      | some b => simp [hmode, hv] at h; rw [h]

/-- Behaviour of one `logger` call under each log policy: policy `true` emits
exactly one message, policy absent/`false` emits nothing, and a mode-scoped
policy emits only when the handle store's `NODE_ENV` is a non-empty key of the
policy mapping whose value is `true`. -/
theorem emitLog_policy (log : Option LogPolicy) (env : Store) (msg : String) :
    ((log = some (.bool true) → (emitLog log env msg).length = 1) ∧
     ((log = none ∨ log = some (.bool false)) → emitLog log env msg = []) ∧
     (∀ m, log = some (.modes m) → emitLog log env msg ≠ [] →
       ∃ mode, lookupList env "NODE_ENV" = some mode ∧ mode ≠ "" ∧
         lookupList m mode = some true)) := by
  refine ⟨?_, ?_, ?_⟩
  · rintro rfl
    simp [emitLog, shouldLog]
  · rintro (rfl | rfl) <;> simp [emitLog, shouldLog]
  · rintro m rfl hne
    have hsl : shouldLog (some (.modes m)) env = true := by
      by_contra hc
      unfold emitLog at hne
      rw [if_neg hc] at hne
      exact hne rfl
    exact shouldLog_modes_true hsl

/-- Branch characterization of `getEnvValue` on a miss with a falsy fallback:
the not-found error is thrown after one logger call. -/
theorem getEnvValue_miss_nofallback (cfg : Config) (w : World) (key : String)
    (habs : lookupList w.env key = none)
    (htru : fallbackTruthy cfg.fallback = false) :
    getEnvValue cfg w key = (.error (.notFound key),
      emitLog cfg.log w.env ("Environment variable " ++ key ++ " not found")) := by
  simp [getEnvValue, habs, htru]

/-- Branch characterization of `getEnvValue` on a miss where the fallback walk
throws: the error propagates uncaught and the logger is never reached. -/
theorem getEnvValue_miss_throw (cfg : Config) (w : World) (key : String) (e : Err)
    (habs : lookupList w.env key = none)
    (htru : fallbackTruthy cfg.fallback = true)
    (hfb : getFallbackValue w.procModeKey cfg.fallback key = .error e) :
    getEnvValue cfg w key = (.error e, []) := by
  simp [getEnvValue, habs, htru, hfb]

/-- Branch characterization of `getEnvValue` on a miss where the fallback walk
yields a truthy (non-empty) string: it is returned after one logger call. -/
theorem getEnvValue_miss_ok (cfg : Config) (w : World) (key fv : String)
    (habs : lookupList w.env key = none)
    (htru : fallbackTruthy cfg.fallback = true)
    (hfb : getFallbackValue w.procModeKey cfg.fallback key = .ok fv)
    (hne : fv ≠ "") :
    getEnvValue cfg w key = (.ok fv, emitLog cfg.log w.env
      ("Environment variable " ++ key ++ " not found, using fallback: " ++ fv)) := by
  simp [getEnvValue, habs, htru, hfb, hne]

/-- Branch characterization of `getEnvValue` on a miss where the fallback walk
yields the falsy empty string: the invalid-fallback error is thrown after one
logger call. -/
theorem getEnvValue_miss_empty (cfg : Config) (w : World) (key : String)
    (habs : lookupList w.env key = none)
    (htru : fallbackTruthy cfg.fallback = true)
    (hfb : getFallbackValue w.procModeKey cfg.fallback key = .ok "") :
    getEnvValue cfg w key = (.error (.invalidFallbackFor key),
      emitLog cfg.log w.env ("Invalid fallback value for environment variable " ++ key)) := by
  simp [getEnvValue, habs, htru, hfb]

/-! Claim theorems. -/

/-- C1: the mode used for mode-scoped fallback selection is read from
`process.env.NODE_ENV`, not from the Environment Store supplied at
construction.  With a custom store whose mode field is `development` and a
process environment whose mode is `production`, resolving an absent key under
the mode-scoped fallback uses the `production` entry; changing the custom
store's mode field to `production` between two otherwise-identical lookups
leaves the chosen entry unchanged.  This refutes the claim's requirement that
the mode be read fresh from the supplied store at each lookup. -/
theorem C1_mode_read_from_process_env :
    (getEnvValue
      { lazy := false,
        fallback := .modes
          [("development", .str "dev_fallback"), ("production", .str "prod_fallback")],
        log := none }
      { proc := [("NODE_ENV", "production")], custom := some [("NODE_ENV", "development")] }
      "MISSING").1 = .ok "prod_fallback" ∧
    (getEnvValue
      { lazy := false,
        fallback := .modes
          [("development", .str "dev_fallback"), ("production", .str "prod_fallback")],
        log := none }
      { proc := [("NODE_ENV", "production")], custom := some [("NODE_ENV", "production")] }
      "MISSING").1 = .ok "prod_fallback" := by
  constructor
  · rw [getEnvValue_miss_ok
      { lazy := false,
        fallback := .modes
          [("development", .str "dev_fallback"), ("production", .str "prod_fallback")],
        log := none }
      { proc := [("NODE_ENV", "production")], custom := some [("NODE_ENV", "development")] }
      "MISSING" "prod_fallback" rfl rfl
      (by simp [getFallbackValue, lookupList, World.procModeKey]) (by decide)]
  · rw [getEnvValue_miss_ok
      { lazy := false,
        fallback := .modes
          [("development", .str "dev_fallback"), ("production", .str "prod_fallback")],
        log := none }
      { proc := [("NODE_ENV", "production")], custom := some [("NODE_ENV", "production")] }
      "MISSING" "prod_fallback" rfl rfl
      (by simp [getFallbackValue, lookupList, World.procModeKey]) (by decide)]

/-- C2: for every key present in the Environment Store — including keys whose
stored value is the empty string — an eager read returns exactly the stored
string, the log sink is not invoked, and the result does not depend on the
fallback or log configuration. -/
theorem C2_hit_precedence (cfg : Config) (w : World) (key v : String)
    (h : lookupList w.env key = some v) :
    getEnvValue cfg w key = (.ok v, []) :=
  getEnvValue_hit cfg w key v h

/-- Witness for C2 at a present key whose stored value is the empty string,
under a configured fallback and an always-on log policy. -/
theorem C2_hit_precedence_witness :
    lookupList (World.env { proc := [("PORT", "")], custom := none }) "PORT" = some "" ∧
    getEnvValue { lazy := false, fallback := .str "fb", log := some (.bool true) }
      { proc := [("PORT", "")], custom := none } "PORT" = (.ok "", []) :=
  ⟨rfl, C2_hit_precedence _ _ _ _ rfl⟩

/-- C3 counterexample: with log policy `true` and a per-key mapping fallback
not containing the requested key, the resolution of an absent key fails (the
walk throws the invalid-fallback error), yet the log sink is invoked zero
times — not exactly once as the claim requires for every failing
resolution. -/
theorem C3_counterexample :
    getEnvValue { lazy := false, fallback := .record [], log := some (.bool true) }
      { proc := [], custom := none } "MISSING" = (.error .invalidFallbackValue, []) :=
  getEnvValue_miss_throw _ _ _ _ rfl rfl
    (by simp [getFallbackValue, lookupList, World.procModeKey])

/-- C3 (amended): for a resolution of an absent key, unless the fallback walk
itself throws (in which case the log sink is never invoked, first conjunct),
log policy `true` fires the sink exactly once, policy `false`/absent never
fires it, and a mode-scoped policy fires it only if the store's current mode
is a key of the policy mapping whose value is `true`. -/
theorem C3_log_policy (cfg : Config) (w : World) (key : String)
    (habs : lookupList w.env key = none) :
    ((fallbackTruthy cfg.fallback = true ∧
        (∃ e, getFallbackValue w.procModeKey cfg.fallback key = .error e)) →
      (getEnvValue cfg w key).2 = []) ∧
    (¬(fallbackTruthy cfg.fallback = true ∧
        (∃ e, getFallbackValue w.procModeKey cfg.fallback key = .error e)) →
      ((cfg.log = some (.bool true) → (getEnvValue cfg w key).2.length = 1) ∧
       ((cfg.log = none ∨ cfg.log = some (.bool false)) →
         (getEnvValue cfg w key).2 = []) ∧
       (∀ m, cfg.log = some (.modes m) → (getEnvValue cfg w key).2 ≠ [] →
         ∃ mode, lookupList w.env "NODE_ENV" = some mode ∧ mode ≠ "" ∧
           lookupList m mode = some true))) := by
  constructor
  · rintro ⟨htru, e, hfb⟩
    rw [getEnvValue_miss_throw cfg w key e habs htru hfb]
  · intro hna
    have hlog : ∃ msg, (getEnvValue cfg w key).2 = emitLog cfg.log w.env msg := by
      cases htru : fallbackTruthy cfg.fallback with
      | false => exact ⟨_, by rw [getEnvValue_miss_nofallback cfg w key habs htru]⟩
      | true =>
        cases hfb : getFallbackValue w.procModeKey cfg.fallback key with
        | error e => exact absurd ⟨htru, e, hfb⟩ hna
        | ok fv =>
          by_cases hfv : fv = ""
          · subst hfv
            exact ⟨_, by rw [getEnvValue_miss_empty cfg w key habs htru hfb]⟩
          · exact ⟨_, by rw [getEnvValue_miss_ok cfg w key fv habs htru hfb hfv]⟩
    obtain ⟨msg, hmsg⟩ := hlog
    rw [hmsg]
    exact emitLog_policy cfg.log w.env msg

/-- Witness for C3: log policy `true` with a literal fallback fires the sink
exactly once on a fallback-used resolution of an absent key. -/
theorem C3_log_policy_witness :
    (getEnvValue { lazy := false, fallback := .str "fb", log := some (.bool true) }
      { proc := [], custom := none } "K").2.length = 1 :=
  ((C3_log_policy { lazy := false, fallback := .str "fb", log := some (.bool true) }
      { proc := [], custom := none } "K" rfl).2
    (by simp [fallbackTruthy, getFallbackValue, World.procModeKey, lookupList])).1 rfl

/-- C4 counterexample: with the process mode `staging`, which matches no entry
of the mode-scoped fallback, resolving the absent key throws the
invalid-fallback error (`Invalid fallback value: undefined`) — it does not
fall through to the not-found failure. -/
theorem C4_counterexample :
    getEnvValue { lazy := false, fallback := .modes [("development", .str "dev")], log := none }
      { proc := [("NODE_ENV", "staging")], custom := none } "MISSING"
        = (.error .invalidFallbackValue, []) ∧
    (getEnvValue { lazy := false, fallback := .modes [("development", .str "dev")], log := none }
      { proc := [("NODE_ENV", "staging")], custom := none } "MISSING").1
        ≠ .error (.notFound "MISSING") := by
  have h := getEnvValue_miss_throw
    { lazy := false, fallback := .modes [("development", .str "dev")], log := none }
    { proc := [("NODE_ENV", "staging")], custom := none } "MISSING" .invalidFallbackValue
    rfl rfl (by simp [getFallbackValue, lookupList, World.procModeKey])
  refine ⟨h, ?_⟩
  rw [h]
  decide

/-- C4 (amended): for every lookup of an absent key under a mode-scoped
fallback whose mode mapping has no entry matching the current mode read from
the process environment (mode unrecognized or absent), the resolution fails
with the invalid-fallback error thrown by the fallback walk, not with the
not-found failure, and the log sink is not invoked. -/
theorem C4_unmatched_mode (cfg : Config) (w : World) (key : String)
    (m : List (String × FB))
    (habs : lookupList w.env key = none)
    (hf : cfg.fallback = .modes m)
    (hm : lookupList m w.procModeKey = none) :
    getEnvValue cfg w key = (.error .invalidFallbackValue, []) := by
  have htru : fallbackTruthy cfg.fallback = true := by
    rw [hf]
    rfl
  have h1 : getFallbackValue w.procModeKey cfg.fallback key
      = .error .invalidFallbackValue := by
    rw [hf]
    simp only [getFallbackValue]
    split
    · rename_i fb hsome
      rw [hm] at hsome
      cases hsome
    · rfl
  rw [getEnvValue_miss_throw cfg w key .invalidFallbackValue habs htru h1]

/-- Witness for C4 at an unrecognized process mode `staging`. -/
theorem C4_unmatched_mode_witness :
    lookupList [("development", FB.str "dev")]
      (World.procModeKey { proc := [("NODE_ENV", "staging")], custom := none }) = none ∧
    getEnvValue { lazy := false, fallback := .modes [("development", .str "dev")], log := none }
      { proc := [("NODE_ENV", "staging")], custom := none } "MISSING"
        = (.error .invalidFallbackValue, []) :=
  ⟨rfl, C4_unmatched_mode _ _ _ _ rfl rfl rfl⟩

/-- C5 counterexample: the empty-string literal fallback is falsy, so it is
treated as no fallback configured — resolving an absent key fails with the
not-found error instead of returning the empty literal. -/
theorem C5_counterexample :
    (getEnvValue { lazy := false, fallback := .str "", log := none }
      { proc := [], custom := none } "ANY").1 = .error (.notFound "ANY") := by
  rw [getEnvValue_miss_nofallback
    { lazy := false, fallback := .str "", log := none }
    { proc := [], custom := none } "ANY" rfl rfl]

/-- C5 (amended): for every key absent from the Environment Store and every
non-empty literal-string fallback, resolution returns that literal (the same
string for every absent key); the empty-string literal is instead treated as
no fallback configured, and the read fails with the not-found error. -/
theorem C5_literal_fallback (cfg : Config) (w : World) (key s : String)
    (habs : lookupList w.env key = none) (hf : cfg.fallback = .str s) (hs : s ≠ "") :
    (getEnvValue cfg w key).1 = .ok s := by
  have htru : fallbackTruthy cfg.fallback = true := by
    rw [hf]
    simp [fallbackTruthy, hs]
  have hfb : getFallbackValue w.procModeKey cfg.fallback key = .ok s := by
    rw [hf]
    simp [getFallbackValue]
  rw [getEnvValue_miss_ok cfg w key s habs htru hfb hs]

/-- Witness for C5 with the literal `fallback_value` on the absent key `ANY`. -/
theorem C5_literal_fallback_witness :
    (getEnvValue { lazy := false, fallback := .str "fallback_value", log := none }
      { proc := [], custom := none } "ANY").1 = .ok "fallback_value" :=
  C5_literal_fallback _ _ _ _ rfl rfl (by decide)

/-- C6 counterexample: a function fallback returning the empty string does not
have its result returned — the empty result is falsy, so the read fails with
the invalid-fallback error instead. -/
theorem C6_counterexample :
    (getEnvValue { lazy := false, fallback := .fn (fun _ => ""), log := none }
      { proc := [], custom := none } "X").1 = .error (.invalidFallbackFor "X") := by
  rw [getEnvValue_miss_empty
    { lazy := false, fallback := .fn (fun _ => ""), log := none }
    { proc := [], custom := none } "X" rfl rfl
    (by simp [getFallbackValue])]

/-- C6 (amended): for every key absent from the Environment Store and every
function fallback `fn`, resolution invokes `fn` with the key and returns
`fn(key)` whenever that result is non-empty; when `fn(key)` is the empty
string, the read instead fails with the invalid-fallback error. -/
theorem C6_function_fallback (cfg : Config) (w : World) (key : String)
    (f : String → String)
    (habs : lookupList w.env key = none) (hf : cfg.fallback = .fn f)
    (hne : f key ≠ "") :
    (getEnvValue cfg w key).1 = .ok (f key) := by
  have htru : fallbackTruthy cfg.fallback = true := by
    rw [hf]
    rfl
  have hfb : getFallbackValue w.procModeKey cfg.fallback key = .ok (f key) := by
    rw [hf]
    simp [getFallbackValue]
  rw [getEnvValue_miss_ok cfg w key (f key) habs htru hfb hne]

/-- Witness for C6: the spec's example `fn = k => k + "_fallback"` on the
absent key `MISSING_VAR` yields `MISSING_VAR_fallback`. -/
theorem C6_function_fallback_witness :
    (getEnvValue
      { lazy := false, fallback := .fn (fun k => k ++ "_fallback"), log := none }
      { proc := [], custom := none } "MISSING_VAR").1 = .ok "MISSING_VAR_fallback" :=
  C6_function_fallback
    { lazy := false, fallback := .fn (fun k => k ++ "_fallback"), log := none }
    { proc := [], custom := none } "MISSING_VAR" (fun k => k ++ "_fallback")
    rfl rfl (by decide)

/-- C7: an eager-discipline write of a non-string value fails with the
type-check error before any store mutation — the returned state is exactly
the prior state, so the prior binding of the key (or its absence) is
preserved. -/
theorem C7_typecheck_write (cfg : Config) (w : World) (key tag : String)
    (hlazy : cfg.lazy = false) :
    setTrap cfg w key (.nonString tag) = (.error (.typeCheck key), w) := by
  simp [setTrap, hlazy]

/-- Witness for C7: writing a non-string to `K` leaves the prior binding
`K = old` in place. -/
theorem C7_typecheck_write_witness :
    setTrap { lazy := false, fallback := .undef, log := none }
      { proc := [("K", "old")], custom := none } "K" (.nonString "number")
      = (.error (.typeCheck "K"), { proc := [("K", "old")], custom := none }) :=
  C7_typecheck_write { lazy := false, fallback := .undef, log := none }
    { proc := [("K", "old")], custom := none } "K" "number" rfl

/-- C8: write-then-read round trip.  Eagerly, `set(K, v)` succeeds, the
underlying store reflects `v` at `K`, and a subsequent eager read of `K`
returns `v`.  Lazily, the accessor called with `v` updates the store and that
same call returns `v`, and a later no-argument call also returns `v`. -/
theorem C8_write_read_roundtrip (cfgE cfgL : Config) (w : World) (key v : String)
    (hE : cfgE.lazy = false) (hL : cfgL.lazy = true) :
    ((setTrap cfgE w key (.str v)).1 = .ok () ∧
     lookupList (World.env (setTrap cfgE w key (.str v)).2) key = some v ∧
     (getEnvValue cfgE (setTrap cfgE w key (.str v)).2 key).1 = .ok v) ∧
    ((lazyAccessorCall cfgL w key (some v)).1 = .ok v ∧
     lookupList (World.env (lazyAccessorCall cfgL w key (some v)).2.2) key = some v ∧
     (lazyAccessorCall cfgL (lazyAccessorCall cfgL w key (some v)).2.2 key none).1
       = .ok v) := by
  have hset : (setTrap cfgE w key (.str v)).2 = setEnvValue w key v := by
    simp [setTrap, hE]
  have hlook : lookupList (World.env (setEnvValue w key v)) key = some v := by
    rw [setEnvValue_env]
    exact lookupList_insert _ _ _
  have hget : getEnvValue cfgE (setEnvValue w key v) key = (.ok v, []) :=
    getEnvValue_hit _ _ _ _ hlook
  have hgetL : getEnvValue cfgL (setEnvValue w key v) key = (.ok v, []) :=
    getEnvValue_hit _ _ _ _ hlook
  refine ⟨⟨?_, ?_, ?_⟩, ?_, ?_, ?_⟩
  · simp [setTrap, hE]
  · rw [hset]
    exact hlook
  · rw [hset, hget]
  · show (getEnvValue cfgL (setEnvValue w key v) key).1 = .ok v
    rw [hgetL]
  · show lookupList (World.env (setEnvValue w key v)) key = some v
    exact hlook
  · show (getEnvValue cfgL (setEnvValue w key v) key).1 = .ok v
    rw [hgetL]

/-- Witness for C8 with key `K` and value `v` on an empty store. -/
theorem C8_write_read_roundtrip_witness :
    ((setTrap { lazy := false, fallback := .undef, log := none }
        { proc := [], custom := none } "K" (.str "v")).1 = .ok () ∧
     lookupList (World.env (setTrap { lazy := false, fallback := .undef, log := none }
        { proc := [], custom := none } "K" (.str "v")).2) "K" = some "v" ∧
     (getEnvValue { lazy := false, fallback := .undef, log := none }
        (setTrap { lazy := false, fallback := .undef, log := none }
          { proc := [], custom := none } "K" (.str "v")).2 "K").1 = .ok "v") ∧
    ((lazyAccessorCall { lazy := true, fallback := .undef, log := none }
        { proc := [], custom := none } "K" (some "v")).1 = .ok "v" ∧
     lookupList (World.env (lazyAccessorCall { lazy := true, fallback := .undef, log := none }
        { proc := [], custom := none } "K" (some "v")).2.2) "K" = some "v" ∧
     (lazyAccessorCall { lazy := true, fallback := .undef, log := none }
        (lazyAccessorCall { lazy := true, fallback := .undef, log := none }
          { proc := [], custom := none } "K" (some "v")).2.2 "K" none).1 = .ok "v") :=
  C8_write_read_roundtrip { lazy := false, fallback := .undef, log := none }
    { lazy := true, fallback := .undef, log := none }
    { proc := [], custom := none } "K" "v" rfl rfl

/-- C9: every read operation — an eager proxy get or a lazy accessor call with
no argument — returns the state unchanged: the resolution path, including the
fallback walk and logging, never writes to the store. -/
theorem C9_reads_preserve_store (cfg : Config) (w : World) (key : String) :
    (getTrapEager cfg w key).2.2 = w ∧ (lazyAccessorCall cfg w key none).2.2 = w :=
  ⟨rfl, rfl⟩

/-- C10: a fallback that resolves to the empty string is never returned: every
successful resolution of an absent key yields a non-empty string; a top-level
empty-string literal fallback is treated as no fallback configured (the read
fails with the not-found error); and a fallback walk that reduces to the empty
string makes the read fail with the invalid-fallback error. -/
theorem C10_empty_fallback_rejected (cfg : Config) (w : World) (key : String)
    (habs : lookupList w.env key = none) :
    (∀ s, (getEnvValue cfg w key).1 = .ok s → s ≠ "") ∧
    (cfg.fallback = .str "" → (getEnvValue cfg w key).1 = .error (.notFound key)) ∧
    (fallbackTruthy cfg.fallback = true →
      getFallbackValue w.procModeKey cfg.fallback key = .ok "" →
      (getEnvValue cfg w key).1 = .error (.invalidFallbackFor key)) := by
  refine ⟨?_, ?_, ?_⟩
  · intro s hs
    cases htru : fallbackTruthy cfg.fallback with
    | false =>
      rw [getEnvValue_miss_nofallback cfg w key habs htru] at hs
      simp at hs
    | true =>
      cases hfb : getFallbackValue w.procModeKey cfg.fallback key with
      | error e =>
        rw [getEnvValue_miss_throw cfg w key e habs htru hfb] at hs
        simp at hs
      | ok fv =>
        by_cases hfv : fv = ""
        · subst hfv
          rw [getEnvValue_miss_empty cfg w key habs htru hfb] at hs
          simp at hs
        · rw [getEnvValue_miss_ok cfg w key fv habs htru hfb hfv] at hs
          simp at hs
          exact hs ▸ hfv
  · intro hf
    have htru : fallbackTruthy cfg.fallback = false := by
      rw [hf]
      rfl
    rw [getEnvValue_miss_nofallback cfg w key habs htru]
  · intro htru hfb
    rw [getEnvValue_miss_empty cfg w key habs htru hfb]

/-- Witness for C10: the per-key mapping fallback `{K: ""}` reduces to the
empty string on the absent key `K`, and the read fails with the
invalid-fallback error. -/
theorem C10_empty_fallback_rejected_witness :
    (getEnvValue { lazy := false, fallback := .record [("K", "")], log := none }
      { proc := [], custom := none } "K").1 = .error (.invalidFallbackFor "K") :=
  (C10_empty_fallback_rejected
      { lazy := false, fallback := .record [("K", "")], log := none }
      { proc := [], custom := none } "K" rfl).2.2 rfl
    (by simp [getFallbackValue, lookupList, World.procModeKey])

end CreateTypedEnv
